import Mathlib

/-!
Shallow embedding of `wordle_solver.py` (vikbyte/WordleBot).

Modelling conventions:
* Python strings of letters/symbols are `List Char`; word lists are
  `List (List Char)`; float scores and probabilities are exact fractions
  (`Frac`: an unnormalised numerator/denominator pair compared by cross
  multiplication — the only numeric operations in the source are sums,
  counts, division of counts, products and comparisons, all exact);
  Python's stable `list.sort(key=..., reverse=...)` is
  `List.insertionSort`, which is stable for the same key order.
* Python's `"".join(set(xs))` deduplicates with unspecified iteration
  order (CPython set order); downstream code only uses membership and
  size of these strings, so it is modelled by `List.dedup`.
* Mutating methods are modelled as functions returning the new solver
  state; `inputGuessResult`, which raises before any mutation on
  malformed input, returns the unchanged state together with the error
  message.
-/

/-- Exact nonnegative fraction standing in for a Python float: the solver only
ever divides a count by a total, multiplies such quotients, and compares them,
so an unnormalised pair with cross-multiplication order is a faithful (and
kernel-computable) model. -/
structure Frac where
  num : Nat
  den : Nat
deriving DecidableEq

/-- Order on fractions by cross multiplication. -/
def Frac.le (a b : Frac) : Prop := a.num * b.den ≤ b.num * a.den

instance (a b : Frac) : Decidable (Frac.le a b) := Nat.decLe _ _

/-- Product of fractions. -/
def Frac.mul (a b : Frac) : Frac := ⟨a.num * b.num, a.den * b.den⟩

/-- From `string.ascii_lowercase` used by the solver. -/
def ascii_lowercase : List Char := "abcdefghijklmnopqrstuvwxyz".toList

/-- From `self.permitted_input_symbols = "#?_"`. -/
def permitted_input_symbols : List Char := "#?_".toList

/-- From `self.symbol_anyletter = "*"`. -/
def symbol_anyletter : Char := '*'

/-- State of `class WordleSolver` (constructor parameters and the fields set
in `__init__` / `reset` / `reset_pattern_parameters`).  `tries` is the list of
`(word, result_symbols)` pairs. -/
structure WordleSolver where
  word_list : List (List Char)
  word_scores : List (List Char × Frac)
  word_symbol_combinations : List (List Char × List (List Char × List (List Char)))
  order_words_by_descending_score : Bool
  word_length : Nat
  tries : List (List Char × List Char)
  included_letters : List Char
  excluded_letters : List Char
  high_prob_letters : List Char
  wrong_spot_pattern : List (List Char)
  right_spot_pattern : List Char
  max_letter_occurrence : List (Char × Nat)
  excluded_words : List (List Char)
  effective_word_list : List (List Char)
deriving DecidableEq

/-- From `WordleSolver.reset_pattern_parameters`. -/
def reset_pattern_parameters (s : WordleSolver) : WordleSolver :=
  { s with
    included_letters := []
    excluded_letters := []
    high_prob_letters := []
    wrong_spot_pattern := List.replicate s.word_length []
    right_spot_pattern := List.replicate s.word_length symbol_anyletter
    max_letter_occurrence := []
    excluded_words := []
    effective_word_list := [] }

/-- One iteration of the inner loop of `WordleSolver.update_pattern_parameters`
(`for i in range(0, self.word_length)`), processing position `i` of the try
`(word, symbol_pattern)`.  Out-of-range indexing, impossible for well-formed
tries, is rendered total with `getD`. -/
def process_symbol (word symbol_pattern : List Char) (s : WordleSolver) (i : Nat) :
    WordleSolver :=
  let letter := word.getD i '*'
  let sym := symbol_pattern.getD i ' '
  if sym = '#' ∨ sym = '?' then
    let s := { s with included_letters := s.included_letters ++ [letter] }
    if sym = '#' then
      { s with right_spot_pattern := s.right_spot_pattern.set i letter }
    else
      { s with wrong_spot_pattern :=
          s.wrong_spot_pattern.set i (s.wrong_spot_pattern.getD i [] ++ [letter]) }
  else if sym = '_' then
    if letter ∉ s.included_letters then
      { s with excluded_letters := s.excluded_letters ++ [letter] }
    else if (List.lookup letter s.max_letter_occurrence).isNone then
      { s with max_letter_occurrence := s.max_letter_occurrence ++
          [(letter, (word.take i).count letter + (word.drop (i + 1)).count letter)] }
    else s
  else s

/-- The body of `for word, symbol_pattern in self.tries` in
`update_pattern_parameters` (position loop only; the
`word_symbol_combinations` collection is modelled separately below as it
commutes with the position loop). -/
def process_try (s : WordleSolver) (t : List Char × List Char) : WordleSolver :=
  (List.range s.word_length).foldl (process_symbol t.1 t.2) s

/-- From `WordleSolver.update_pattern_parameters`: reset, accumulate over all
tries, then deduplicate `included_letters`, filter `excluded_letters` against
the (deduplicated) `included_letters`, deduplicate each `wrong_spot_pattern`
entry, and build `effective_word_list` as the intersection of all matched
`word_symbol_combinations` entries. -/
def update_pattern_parameters (s : WordleSolver) : WordleSolver :=
  let s1 := s.tries.foldl process_try (reset_pattern_parameters s)
  let included := s1.included_letters.dedup
  let excluded := (s1.excluded_letters.filter (fun c => decide (c ∉ included))).dedup
  let wrong := s1.wrong_spot_pattern.map List.dedup
  let possible_word_lists := s.tries.filterMap
    (fun t => (List.lookup t.1 s.word_symbol_combinations).bind (fun m => List.lookup t.2 m))
  let effective :=
    if possible_word_lists = [] then s1.effective_word_list
    else (possible_word_lists.foldl (fun acc l => acc ++ l) []).dedup.filter
      (fun w => possible_word_lists.all (fun l => decide (w ∈ l)))
  { s1 with
    included_letters := included
    excluded_letters := excluded
    wrong_spot_pattern := wrong
    effective_word_list := effective }

/-- From `WordleSolver.get_letter_prob_dict`.  Returns `[]` for an empty word
list exactly as the Python does; otherwise an association list over the
ascii lowercase alphabet.  `freq / total_letters` is the exact fraction
`⟨freq, total_letters⟩`. -/
def get_letter_prob_dict (word_list : List (List Char)) : List (Char × Frac) :=
  if word_list = [] then []
  else
    let total_letters : Nat := (word_list.map List.length).sum
    ascii_lowercase.map (fun letter =>
      (letter, (⟨(word_list.map (fun w => w.count letter)).sum, total_letters⟩ : Frac)))

/-- From `WordleSolver.get_suggested_letters_by_freq`. -/
def get_suggested_letters_by_freq (s : WordleSolver) (possible_words : List (List Char)) :
    List (Char × Frac) :=
  if possible_words = [] then []
  else (get_letter_prob_dict possible_words).filter
    (fun p => decide (p.1 ∉ s.included_letters ++ s.excluded_letters ++ s.high_prob_letters))

/-- From `WordleSolver.get_letter_positional_prob_dict` (an empty distribution
stands for the `{}` appended at fixed positions). -/
def get_letter_positional_prob_dict (s : WordleSolver) (words : List (List Char)) :
    List (List (Char × Frac)) :=
  (List.range s.right_spot_pattern.length).map (fun i =>
    if s.right_spot_pattern.getD i '*' = symbol_anyletter then
      get_letter_prob_dict (words.map (fun w => [w.getD i ' ']))
    else [])

/-- From `WordleSolver.sort_words_with_letter_positional_prob`: score each word
by the product of its letters' positional probabilities over unconstrained
positions, then stable-sort descending by score. -/
def sort_words_with_letter_positional_prob (s : WordleSolver) (words : List (List Char)) :
    List (List Char × Frac) :=
  let letter_position_prob := get_letter_positional_prob_dict s words
  let words_with_prob := words.map (fun w =>
    (w, (List.range letter_position_prob.length).foldl (fun score i =>
      if letter_position_prob.getD i [] = [] then score
      else Frac.mul score ((List.lookup (w.getD i ' ') (letter_position_prob.getD i [])).getD ⟨0, 1⟩))
      (⟨1, 1⟩ : Frac)))
  List.insertionSort (fun a b => Frac.le b.2 a.2) words_with_prob

/-- From `WordleSolver.sort_words`: score-table sort when the table covers
every word (ascending, or descending when `order_words_by_descending_score`),
otherwise positional-probability sort. -/
def sort_words (s : WordleSolver) (words : List (List Char)) : List (List Char) :=
  let sorted_words :=
    if s.word_scores ≠ [] ∧ words.all (fun w => (List.lookup w s.word_scores).isSome) then
      let words_with_scores := words.map (fun w => (w, (List.lookup w s.word_scores).getD ⟨0, 1⟩))
      if s.order_words_by_descending_score then
        (List.insertionSort (fun a b => Frac.le b.2 a.2) words_with_scores).map Prod.fst
      else
        (List.insertionSort (fun a b => Frac.le a.2 b.2) words_with_scores).map Prod.fst
    else []
  if sorted_words = [] then (sort_words_with_letter_positional_prob s words).map Prod.fst
  else sorted_words

/-- From `WordleSolver.is_not_in_word`. -/
def is_not_in_word (s : WordleSolver) (word : List Char) : Bool :=
  s.excluded_letters.all (fun letter => decide (letter ∉ word))

/-- From `WordleSolver.is_in_word` (note: tests `included_letters` together
with `high_prob_letters`). -/
def is_in_word (s : WordleSolver) (word : List Char) : Bool :=
  (s.included_letters ++ s.high_prob_letters).all (fun letter => decide (letter ∈ word))

/-- From `WordleSolver.is_not_tried`. -/
def is_not_tried (s : WordleSolver) (word : List Char) : Bool :=
  decide (word ∉ s.tries.map Prod.fst)

/-- From `WordleSolver.match_right_spot_pattern`: every position is either
unconstrained or matches the word's letter. -/
def match_right_spot_pattern (s : WordleSolver) (word : List Char) : Bool :=
  (List.range s.right_spot_pattern.length).all (fun i =>
    decide (s.right_spot_pattern.getD i '*' = symbol_anyletter ∨
      s.right_spot_pattern.getD i '*' = word.getD i ' '))

/-- From `WordleSolver.get_possible_words`.  The Python method first replaces
an empty `effective_word_list` by the full word list (a cached assignment with
no further observable effect, rendered here by the local `effective`).  The
final `for letter in self.max_letter_occurrence.keys()` loop rebinds
`fourth_level_filter` from `third_level_filter` on every iteration, so only
the last key's cap survives; the fold below reproduces that rebinding
faithfully (the accumulator is discarded). -/
def get_possible_words (s : WordleSolver) : List (List Char) :=
  let effective := if s.effective_word_list = [] then s.word_list else s.effective_word_list
  let all_excluded_words := (s.tries.map Prod.fst ++ s.excluded_words).dedup
  let first_level_filter := effective.filter (fun w =>
    is_in_word s w && is_not_in_word s w && is_not_tried s w &&
      decide (w ∉ all_excluded_words))
  let second_level_filter := first_level_filter.filter (fun w =>
    (List.range s.word_length).all (fun i =>
      decide (w.getD i ' ' ∉ s.wrong_spot_pattern.getD i [])))
  let third_level_filter := second_level_filter.filter (fun w => match_right_spot_pattern s w)
  if s.max_letter_occurrence = [] then third_level_filter
  else (s.max_letter_occurrence.map Prod.fst).foldl
    (fun _ letter => third_level_filter.filter (fun w =>
      decide (w.count letter ≤ (List.lookup letter s.max_letter_occurrence).getD 0)))
    third_level_filter

/-- The `for i in range(unknown_letter_count, 0, -1)` loop of
`WordleSolver.get_suggested_words`, by fuel (`i` counts down).  Each step sets
`high_prob_letters` to the top-`i` suggested letters and calls
`update_pattern_parameters`, which begins by resetting `high_prob_letters`
(and the caller-installed `excluded_words`); the explicit clearing of
`high_prob_letters` after the `get_possible_words` call is reproduced as
`s2`.  Fuel `0` is the fall-through `return` of the ranked base list. -/
def suggest_loop (suggested_letters : List Char) (all_possible_words : List (List Char)) :
    WordleSolver → Nat → List (List Char)
  | s, 0 => sort_words s all_possible_words
  | s, i + 1 =>
    let s1 := update_pattern_parameters
      { s with high_prob_letters := suggested_letters.take (i + 1) }
    let suggested_words := get_possible_words s1
    let s2 := { s1 with high_prob_letters := [] }
    if suggested_words = [] then suggest_loop suggested_letters all_possible_words s2 i
    else sort_words s2 suggested_words

/-- From `WordleSolver.get_suggested_words`.  `s0` records the
`effective_word_list` caching performed by the initial `get_possible_words`
call; `unknown_letter_count` is `word_length - len(included_letters)`
(truncated at zero, as `range(k, 0, -1)` is empty for `k <= 0`). -/
def get_suggested_words (s : WordleSolver) : List (List Char) :=
  let all_possible_words := get_possible_words s
  let s0 := { s with effective_word_list :=
    if s.effective_word_list = [] then s.word_list else s.effective_word_list }
  if all_possible_words = [] then []
  else
    let unknown_letter_count := s0.word_length - s0.included_letters.length
    let suggested_letters_with_prob := get_suggested_letters_by_freq s0 all_possible_words
    if suggested_letters_with_prob = [] then []
    else
      let suggested_letters :=
        (List.insertionSort (fun a b => Frac.le b.2 a.2) suggested_letters_with_prob).map Prod.fst
      suggest_loop suggested_letters all_possible_words s0 unknown_letter_count

/-- From `WordleSolver.input_guess_result`: validations in source order, each
raised before `self.tries` is appended; the second component is the raised
message (`none` on success), the first is the resulting state (unchanged when
an error is raised, since every `raise` precedes the mutation). -/
def input_guess_result (s : WordleSolver) (word result_symbols : List Char) :
    WordleSolver × Option String :=
  if word.length ≠ s.word_length ∨ result_symbols.length ≠ s.word_length then
    (s, some "Word or symbol length is invalid")
  else if ¬ word.all (fun c => decide (c ∈ ascii_lowercase)) then
    (s, some "contains invalid character")
  else if ¬ result_symbols.all (fun c => decide (c ∈ permitted_input_symbols)) then
    (s, some "Symbols contains an invalid symbol")
  else
    (update_pattern_parameters { s with tries := s.tries ++ [(word, result_symbols)] }, none)

/-- From `WordleSolver.get_pattern_parameter_conflicts`.  The second loop's
`conflicts.append((letter, ...))` reuses the variable `letter` left over from
the first loop (`for letter in self.excluded_letters`): when
`excluded_letters` is empty and the second loop finds a conflict, the Python
raises `NameError`, modelled as `none`; otherwise `letter` is the last
excluded letter. -/
def get_pattern_parameter_conflicts (s : WordleSolver) :
    Option (List (Char × String)) :=
  let excluded_conflicts := s.excluded_letters.foldl (fun acc letter =>
    let acc := if letter ∈ s.included_letters ++ s.high_prob_letters then
      acc ++ [(letter, "excluded letter found in inclusion list")] else acc
    if letter ∈ s.right_spot_pattern then
      acc ++ [(letter, "excluded letter found in right spot pattern")] else acc) []
  let conflict_positions := (List.range s.word_length).filter (fun i =>
    decide (s.right_spot_pattern.getD i '*' ∈ s.wrong_spot_pattern.getD i []))
  if conflict_positions = [] then some excluded_conflicts
  else
    match s.excluded_letters.getLast? with
    | none => none
    | some letter => some (excluded_conflicts ++ conflict_positions.map
        (fun _ => (letter, "letter in right spot found in wrong spot pattern")))

/-- Follows the spec's words (§4.4), for comparison with `suggest_loop`: at
each relaxation step `highProbLetters` is "temporarily set to the top-`i` most
frequent letters" and the candidate set is recomputed WITH this extra
constraint still in force (the source instead lets `update_pattern_parameters`
reset the constraint before `get_possible_words` runs). -/
def suggest_loop_spec (suggested_letters : List Char) (all_possible_words : List (List Char)) :
    WordleSolver → Nat → List (List Char)
  | s, 0 => sort_words s all_possible_words
  | s, i + 1 =>
    let s1 := { update_pattern_parameters s with
      high_prob_letters := suggested_letters.take (i + 1) }
    let suggested_words := get_possible_words s1
    let s2 := { s1 with high_prob_letters := [] }
    if suggested_words = [] then suggest_loop_spec suggested_letters all_possible_words s2 i
    else sort_words s2 suggested_words

/-- Follows the spec's words (§4.4), for comparison with
`get_suggested_words`: `k` is "the number of letter positions not yet fixed"
(unconstrained `rightSpotPattern` slots) and the loop keeps the top-`i`
letters as an extra must-include constraint via `suggest_loop_spec`. -/
def get_suggested_words_spec (s : WordleSolver) : List (List Char) :=
  let all_possible_words := get_possible_words s
  let s0 := { s with effective_word_list :=
    if s.effective_word_list = [] then s.word_list else s.effective_word_list }
  if all_possible_words = [] then []
  else
    let unknown_position_count := s0.right_spot_pattern.count symbol_anyletter
    let suggested_letters_with_prob := get_suggested_letters_by_freq s0 all_possible_words
    if suggested_letters_with_prob = [] then []
    else
      let suggested_letters :=
        (List.insertionSort (fun a b => Frac.le b.2 a.2) suggested_letters_with_prob).map Prod.fst
      suggest_loop_spec suggested_letters all_possible_words s0 unknown_position_count

/-- Result record of `WordleSolverMultiList.get_suggested_words`
(`SuggestedWordsResults` in the source; the path is `Option` because the
final fallback uses `None` when no word list file paths are configured). -/
structure SuggestedWordsResults where
  words : List (List Char)
  word_list_file_path : Option String
deriving DecidableEq

/-- State of `class WordleSolverMultiList` (the per-solver configuration
lives inside each element of `solvers`). -/
structure WordleSolverMultiList where
  solvers : List WordleSolver
  tries : List (List Char × List Char)
  max_try_indexes_for_lists : List Nat
  word_list_file_paths : List String

/-- A `WordleSolver(None, 5, True)` as built by `WordleSolverMultiList.reset`
before its word list is assigned; used only as the (never reached) `getD`
fallback when indexing `solvers`. -/
def default_solver : WordleSolver :=
  ⟨[], [], [], false, 5, [], [], [], [], List.replicate 5 [], List.replicate 5 '*', [], [], []⟩

/-- The `for i in range(0, len(self.solvers))` loop of
`WordleSolverMultiList.get_suggested_words`: skip source `i` when the
threshold list is at least as long as the solver list and the shared try
count has reached `max_try_indexes_for_lists[i]`; otherwise return the first
non-empty suggestion list tagged with that source's file path.  Falling off
the loop returns an empty result tagged with the last configured path. -/
def multi_suggest_loop (ms : WordleSolverMultiList) : List Nat → SuggestedWordsResults
  | [] => ⟨[], ms.word_list_file_paths.getLast?⟩
  | i :: rest =>
    if ms.max_try_indexes_for_lists.length ≥ ms.solvers.length ∧
        ms.tries.length ≥ ms.max_try_indexes_for_lists.getD i 0 then
      multi_suggest_loop ms rest
    else
      let suggested_words := get_suggested_words (ms.solvers.getD i default_solver)
      if suggested_words = [] then multi_suggest_loop ms rest
      else ⟨suggested_words, ms.word_list_file_paths.get? i⟩

/-- From `WordleSolverMultiList.get_suggested_words`. -/
def multi_get_suggested_words (ms : WordleSolverMultiList) : SuggestedWordsResults :=
  multi_suggest_loop ms (List.range ms.solvers.length)

/-- The `for solver in self.solvers` loop of
`WordleSolverMultiList.input_guess_result`: each solver either accepts the
guess (and is updated) or raises before mutating itself; an exception aborts
the loop, leaving the remaining solvers untouched. -/
def multi_input_loop (word result_symbols : List Char) :
    List WordleSolver → List WordleSolver × Option String
  | [] => ([], none)
  | s :: rest =>
    let r := input_guess_result s word result_symbols
    match r.2 with
    | some e => (r.1 :: rest, some e)
    | none =>
      let rr := multi_input_loop word result_symbols rest
      (r.1 :: rr.1, rr.2)

/-- From `WordleSolverMultiList.input_guess_result`: broadcast to every
solver, then append to the shared try history (skipped when a solver raised,
since the exception propagates before the append). -/
def multi_input_guess_result (ms : WordleSolverMultiList) (word result_symbols : List Char) :
    WordleSolverMultiList × Option String :=
  let r := multi_input_loop word result_symbols ms.solvers
  match r.2 with
  | some e => ({ ms with solvers := r.1 }, some e)
  | none => ({ ms with solvers := r.1, tries := ms.tries ++ [(word, result_symbols)] }, none)

/-- Letter of a try's word at position `i` (with the same out-of-range default
as `process_symbol`). -/
def wordAt (t : List Char × List Char) (i : Nat) : Char := t.1.getD i '*'

/-- Feedback symbol of a try at position `i` (with the same out-of-range
default as `process_symbol`). -/
def symAt (t : List Char × List Char) (i : Nat) : Char := t.2.getD i ' '

/-- Some try marks letter `c` as Correct (`#`) at position `i`. -/
def markedCorrect (tries : List (List Char × List Char)) (c : Char) (i : Nat) : Prop :=
  ∃ t ∈ tries, symAt t i = '#' ∧ wordAt t i = c

/-- Some try marks letter `c` as PresentWrongSpot (`?`) at position `i`. -/
def markedPresent (tries : List (List Char × List Char)) (c : Char) (i : Nat) : Prop :=
  ∃ t ∈ tries, symAt t i = '?' ∧ wordAt t i = c

/-- A well-formed guess for word length `wl`: both components have length
`wl`, the word is ascii lowercase and the feedback uses only `#`, `?`, `_`
(exactly the conditions `input_guess_result` validates). -/
def WFTry (wl : Nat) (t : List Char × List Char) : Prop :=
  t.1.length = wl ∧ t.2.length = wl ∧
    (∀ c ∈ t.1, c ∈ ascii_lowercase) ∧ (∀ c ∈ t.2, c ∈ permitted_input_symbols)

/-- Position-consistent feedback: no letter is marked Correct at a position
by one try and PresentWrongSpot at the same position by another (as happens
for any fixed hidden word). -/
def pos_consistent (wl : Nat) (tries : List (List Char × List Char)) : Prop :=
  ∀ i < wl, ∀ t ∈ tries, ∀ u ∈ tries,
    symAt t i = '#' → symAt u i = '?' → wordAt t i ≠ wordAt u i

instance (wl : Nat) (t : List Char × List Char) : Decidable (WFTry wl t) :=
  inferInstanceAs (Decidable (t.1.length = wl ∧ t.2.length = wl ∧
    (∀ c ∈ t.1, c ∈ ascii_lowercase) ∧ (∀ c ∈ t.2, c ∈ permitted_input_symbols)))

instance (wl : Nat) (tries : List (List Char × List Char)) :
    Decidable (pos_consistent wl tries) :=
  inferInstanceAs (Decidable (∀ i < wl, ∀ t ∈ tries, ∀ u ∈ tries,
    symAt t i = '#' → symAt u i = '?' → wordAt t i ≠ wordAt u i))

/-- The constructor-time configuration of a solver: the fields that
`reset_pattern_parameters` / `update_pattern_parameters` read but never
write. -/
def solver_config (s : WordleSolver) :=
  (s.word_list, s.word_scores, s.word_symbol_combinations,
    s.order_words_by_descending_score, s.word_length, s.tries)

/-- Invariant tying the accumulated pattern fields back to the try history:
wrong-spot letters were marked `?` there, a non-`*` right-spot letter was
marked `#` there and has been appended to `included_letters`, and excluded
letters are actual (lowercase) word letters, never the `*` filler. -/
def pattern_inv (tries : List (List Char × List Char)) (wl : Nat) (s : WordleSolver) : Prop :=
  s.right_spot_pattern.length = wl ∧
  (∀ i c, c ∈ s.wrong_spot_pattern.getD i [] → markedPresent tries c i) ∧
  (∀ i, s.right_spot_pattern.getD i '*' = '*' ∨
    (markedCorrect tries (s.right_spot_pattern.getD i '*') i ∧
      s.right_spot_pattern.getD i '*' ∈ s.included_letters)) ∧
  (∀ c ∈ s.excluded_letters, c ≠ '*')

/-- A fresh five-letter solver over `wl` (as after `WordleSolver.__init__`
with a pre-assigned word list, no scores and no symbol combinations). -/
def fresh_solver (wl : List (List Char)) : WordleSolver :=
  ⟨wl, [], [], false, 5, [], [], [], [], List.replicate 5 [], List.replicate 5 '*', [], [], []⟩

/-- A fresh solver whose try history is `tr`, with the pattern state derived
from it (the state reached by entering the tries through
`input_guess_result`). -/
def solver_with_tries (wl : List (List Char)) (tr : List (List Char × List Char)) :
    WordleSolver :=
  update_pattern_parameters { fresh_solver wl with tries := tr }

/-- Concrete state for C1: two candidate words, no tries yet. -/
def exC1 : WordleSolver := solver_with_tries ["aabbb".toList, "abcde".toList] []

/-- Concrete state for C2: after one all-`?` try and five all-`_` tries, all
26 letters are included or excluded, yet "bcdea" is still a candidate. -/
def exC2 : WordleSolver := solver_with_tries ["bcdea".toList]
  [("abcde".toList, "?????".toList), ("fghij".toList, "_____".toList),
   ("klmno".toList, "_____".toList), ("pqrst".toList, "_____".toList),
   ("uvwxy".toList, "_____".toList), ("zzzzz".toList, "_____".toList)]

/-- Concrete state for C3: the guess "eeaxa" with feedback "#_#__" caps both
'e' and 'a' at one occurrence. -/
def exC3 : WordleSolver := solver_with_tries ["ebabe".toList]
  [("eeaxa".toList, "#_#__".toList)]

/-- Concrete state for C4: no tries, caller-supplied exclusion of "slate"
installed via `set_excluded_words`. -/
def exC4 : WordleSolver :=
  { solver_with_tries ["slate".toList, "crane".toList] [] with
    excluded_words := ["slate".toList] }

/-- Concrete state for the C5 witness: a fresh solver with an empty list. -/
def exC5 : WordleSolver := fresh_solver []

/-- Concrete state for the C6/C7 witnesses: one well-formed,
position-consistent try. -/
def exC6 : WordleSolver := solver_with_tries [] [("aabcd".toList, "?_###".toList)]

/-- Concrete state for C7: the same word guessed twice, with feedback marking
'a' at position 0 once as PresentWrongSpot and once as Correct. -/
def exC7 : WordleSolver := solver_with_tries []
  [("abcde".toList, "?____".toList), ("abcde".toList, "#____".toList)]

/-- Concrete state for the C8 witness: two sources with thresholds
`[1, 7]` and one submitted guess. -/
def exC8 : WordleSolverMultiList :=
  ⟨[default_solver, default_solver], [(List.replicate 5 'a', List.replicate 5 '_')],
    [1, 7], ["words_a.txt", "words_b.txt"]⟩

/-- Concrete state for C9: the spec's Scenario B guess "sheep" with feedback
`[Absent, Correct, Correct, Correct, Absent]`. -/
def exC9 : WordleSolver := solver_with_tries ["theee".toList]
  [("sheep".toList, "_###_".toList)]

/-- States for the amended C9: "sheep" with feedback
`[Absent, Correct, Correct, Absent, Absent]`, over an arbitrary word list. -/
def sheep_amended_solver (wl : List (List Char)) : WordleSolver :=
  solver_with_tries wl [("sheep".toList, "_##__".toList)]

/-- Concrete state for the C10 witness: empty `excluded_letters` with a
right-spot letter repeated in the same position's wrong-spot set. -/
def exC10 : WordleSolver :=
  { fresh_solver [] with
    right_spot_pattern := "a****".toList
    wrong_spot_pattern := [['a'], [], [], [], []] }

/-- The raw accumulator state of `update_pattern_parameters` before its
final deduplication/filter pass (the value of `self` right after the
`for word, symbol_pattern in self.tries` loop). -/
def pattern_acc (s : WordleSolver) : WordleSolver :=
  s.tries.foldl process_try (reset_pattern_parameters s)

theorem getD_set_self {α : Type _} (l : List α) (i : Nat) (a d : α) (h : i < l.length) :
    (l.set i a).getD i d = a := by
  simp [List.getD_eq_getElem?_getD, List.getElem?_set_self' , h]

theorem getD_set_ne {α : Type _} (l : List α) {i j : Nat} (a d : α) (h : i ≠ j) :
    (l.set i a).getD j d = l.getD j d := by
  simp [List.getD_eq_getElem?_getD, List.getElem?_set_ne h]

theorem getD_replicate_self {α : Type _} (n i : Nat) (a : α) :
    (List.replicate n a).getD i a = a := by
  simp [List.getD_eq_getElem?_getD, List.getElem?_replicate]
  split <;> rfl

theorem lt_length_of_getD_ne {α : Type _} {l : List α} {i : Nat} {d : α}
    (h : l.getD i d ≠ d) : i < l.length := by
  by_contra hge
  exact h (by simp [List.getD_eq_getElem?_getD, List.getElem?_eq_none (Nat.le_of_not_lt hge)])

theorem getD_map_dedup (l : List (List Char)) (i : Nat) :
    (l.map List.dedup).getD i [] = (l.getD i []).dedup := by
  induction l generalizing i with
  | nil => simp [List.getD]
  | cons x xs ih =>
    cases i with
    | zero => rfl
    | succ j => simpa using ih j

theorem solver_config_process_symbol (word symbol_pattern : List Char) (s : WordleSolver)
    (i : Nat) : solver_config (process_symbol word symbol_pattern s i) = solver_config s := by
  simp only [process_symbol]
  split_ifs <;> rfl

theorem solver_config_foldl_process_symbol (word symbol_pattern : List Char) :
    ∀ (idxs : List Nat) (s : WordleSolver),
      solver_config (idxs.foldl (process_symbol word symbol_pattern) s) = solver_config s := by
  intro idxs
  induction idxs with
  | nil => intro s; rfl
  | cons i rest ih =>
    intro s
    simpa [solver_config_process_symbol] using ih (process_symbol word symbol_pattern s i)

theorem solver_config_process_try (s : WordleSolver) (t : List Char × List Char) :
    solver_config (process_try s t) = solver_config s :=
  solver_config_foldl_process_symbol t.1 t.2 _ s

theorem solver_config_foldl_process_try :
    ∀ (l : List (List Char × List Char)) (s : WordleSolver),
      solver_config (l.foldl process_try s) = solver_config s := by
  intro l
  induction l with
  | nil => intro s; rfl
  | cons t rest ih =>
    intro s
    simpa [solver_config_process_try] using ih (process_try s t)

theorem solver_config_update (s : WordleSolver) :
    solver_config (update_pattern_parameters s) = solver_config s :=
  solver_config_foldl_process_try s.tries (reset_pattern_parameters s)

theorem update_eq_of_config {s t : WordleSolver}
    (h : solver_config s = solver_config t) :
    update_pattern_parameters s = update_pattern_parameters t := by
  cases s
  cases t
  simp only [solver_config, Prod.mk.injEq] at h
  obtain ⟨rfl, rfl, rfl, rfl, rfl, rfl⟩ := h
  rfl

theorem config_proj_word_length {s t : WordleSolver}
    (h : solver_config s = solver_config t) : s.word_length = t.word_length :=
  congrArg (fun p => p.2.2.2.2.1) h

theorem config_proj_tries {s t : WordleSolver}
    (h : solver_config s = solver_config t) : s.tries = t.tries :=
  congrArg (fun p => p.2.2.2.2.2) h

@[simp] theorem update_included_letters (s : WordleSolver) :
    (update_pattern_parameters s).included_letters = (pattern_acc s).included_letters.dedup := rfl

@[simp] theorem update_excluded_letters (s : WordleSolver) :
    (update_pattern_parameters s).excluded_letters =
      ((pattern_acc s).excluded_letters.filter
        (fun c => decide (c ∉ (pattern_acc s).included_letters.dedup))).dedup := rfl

@[simp] theorem update_right_spot (s : WordleSolver) :
    (update_pattern_parameters s).right_spot_pattern = (pattern_acc s).right_spot_pattern := rfl

@[simp] theorem update_wrong_spot (s : WordleSolver) :
    (update_pattern_parameters s).wrong_spot_pattern =
      (pattern_acc s).wrong_spot_pattern.map List.dedup := rfl

@[simp] theorem update_max_letter_occurrence (s : WordleSolver) :
    (update_pattern_parameters s).max_letter_occurrence =
      (pattern_acc s).max_letter_occurrence := rfl

theorem update_tries (s : WordleSolver) : (update_pattern_parameters s).tries = s.tries :=
  config_proj_tries (solver_config_update s)

theorem update_word_length (s : WordleSolver) :
    (update_pattern_parameters s).word_length = s.word_length :=
  config_proj_word_length (solver_config_update s)

theorem hp_process_symbol (word symbol_pattern : List Char) (s : WordleSolver) (i : Nat) :
    (process_symbol word symbol_pattern s i).high_prob_letters = s.high_prob_letters := by
  simp only [process_symbol]
  split_ifs <;> rfl

theorem hp_foldl_process_symbol (word symbol_pattern : List Char) :
    ∀ (idxs : List Nat) (s : WordleSolver),
      (idxs.foldl (process_symbol word symbol_pattern) s).high_prob_letters =
        s.high_prob_letters := by
  intro idxs
  induction idxs with
  | nil => intro s; rfl
  | cons i rest ih =>
    intro s
    simpa [hp_process_symbol] using ih (process_symbol word symbol_pattern s i)

theorem hp_process_try (s : WordleSolver) (t : List Char × List Char) :
    (process_try s t).high_prob_letters = s.high_prob_letters :=
  hp_foldl_process_symbol t.1 t.2 _ s

theorem hp_foldl_process_try :
    ∀ (l : List (List Char × List Char)) (s : WordleSolver),
      (l.foldl process_try s).high_prob_letters = s.high_prob_letters := by
  intro l
  induction l with
  | nil => intro s; rfl
  | cons t rest ih =>
    intro s
    simpa [hp_process_try] using ih (process_try s t)

theorem update_high_prob_letters (s : WordleSolver) :
    (update_pattern_parameters s).high_prob_letters = [] :=
  hp_foldl_process_try s.tries (reset_pattern_parameters s)

theorem set_hp_self {s : WordleSolver} (h : s.high_prob_letters = []) :
    { s with high_prob_letters := [] } = s := by
  cases s
  simp only at h
  subst h
  rfl

theorem update_set_hp (s : WordleSolver) (x : List Char) :
    update_pattern_parameters { s with high_prob_letters := x } =
      update_pattern_parameters s :=
  update_eq_of_config rfl

theorem update_set_eff (s : WordleSolver) (e : List (List Char)) :
    update_pattern_parameters { s with effective_word_list := e } =
      update_pattern_parameters s :=
  update_eq_of_config rfl

theorem update_update (s : WordleSolver) :
    update_pattern_parameters (update_pattern_parameters s) = update_pattern_parameters s :=
  update_eq_of_config (solver_config_update s)

theorem sort_pairs_perm {α β : Type _} (r : α × β → α × β → Prop) [DecidableRel r]
    (f : α → β) (l : List α) :
    List.Perm ((List.insertionSort r (l.map (fun x => (x, f x)))).map Prod.fst) l := by
  refine ((List.perm_insertionSort r _).map Prod.fst).trans ?_
  rw [List.map_map]
  have h : List.map (Prod.fst ∘ fun x => (x, f x)) l = l := by
    induction l with
    | nil => rfl
    | cons x xs ih => simp only [List.map_cons, ih]; rfl
  rw [h]

theorem sort_words_positional_perm (s : WordleSolver) (ws : List (List Char)) :
    List.Perm ((sort_words_with_letter_positional_prob s ws).map Prod.fst) ws := by
  unfold sort_words_with_letter_positional_prob
  exact sort_pairs_perm _ _ _

theorem sort_words_perm (s : WordleSolver) (ws : List (List Char)) :
    List.Perm (sort_words s ws) ws := by
  simp only [sort_words]
  split_ifs with h1 h2 h3 h4 h5
  all_goals first
    | exact sort_words_positional_perm s ws
    | exact sort_pairs_perm (fun a b => Frac.le b.2 a.2)
        (fun w => (List.lookup w s.word_scores).getD ⟨0, 1⟩) ws
    | exact sort_pairs_perm (fun a b => Frac.le a.2 b.2)
        (fun w => (List.lookup w s.word_scores).getD ⟨0, 1⟩) ws
    | exact absurd rfl h5

theorem mem_sort_words {s : WordleSolver} {ws : List (List Char)} {w : List Char} :
    w ∈ sort_words s ws ↔ w ∈ ws :=
  (sort_words_perm s ws).mem_iff

theorem sort_words_ne_nil {s : WordleSolver} {ws : List (List Char)} (h : ws ≠ []) :
    sort_words s ws ≠ [] := by
  intro hnil
  exact h (List.length_eq_zero.mp ((sort_words_perm s ws).symm.length_eq.trans
    (by simp [hnil])))

theorem sort_words_set_eff (s : WordleSolver) (e ws : List (List Char)) :
    sort_words { s with effective_word_list := e } ws = sort_words s ws := rfl

theorem letters_by_freq_set_eff (s : WordleSolver) (e : List (List Char))
    (ws : List (List Char)) :
    get_suggested_letters_by_freq { s with effective_word_list := e } ws =
      get_suggested_letters_by_freq s ws := rfl

theorem suggest_loop_from_update (letters : List Char) (base : List (List Char))
    (t : WordleSolver) :
    ∀ i, suggest_loop letters base (update_pattern_parameters t) i =
      if get_possible_words (update_pattern_parameters t) = [] ∨ i = 0 then
        sort_words (update_pattern_parameters t) base
      else sort_words (update_pattern_parameters t)
        (get_possible_words (update_pattern_parameters t)) := by
  intro i
  induction i with
  | zero => simp [suggest_loop]
  | succ i ih =>
    have h1 : update_pattern_parameters { update_pattern_parameters t with
        high_prob_letters := letters.take (i + 1) } = update_pattern_parameters t :=
      (update_set_hp _ _).trans (update_update t)
    have h2 : { update_pattern_parameters t with high_prob_letters := [] } =
        update_pattern_parameters t := set_hp_self (update_high_prob_letters t)
    simp only [suggest_loop, h1, h2]
    by_cases hw : get_possible_words (update_pattern_parameters t) = []
    · simp [hw, ih]
    · simp [hw]

theorem mem_rebind_fold {α : Type _} (third : List α) (f : Char → α → Bool) :
    ∀ (keys : List Char) (init : List α), init ⊆ third →
      ∀ x ∈ keys.foldl (fun _ k => third.filter (f k)) init, x ∈ third := by
  intro keys
  induction keys with
  | nil => intro init hsub x hx; exact hsub hx
  | cons k rest ih =>
    intro init hsub x hx
    exact ih _ (fun y hy => (List.mem_filter.mp hy).1) x hx

theorem mem_possible_words_not_tried {s : WordleSolver} {w : List Char}
    (h : w ∈ get_possible_words s) : w ∉ s.tries.map Prod.fst := by
  simp only [get_possible_words] at h
  have hthird : w ∈ List.filter (fun v => match_right_spot_pattern s v)
      (List.filter (fun v => (List.range s.word_length).all (fun i =>
          decide (v.getD i ' ' ∉ s.wrong_spot_pattern.getD i [])))
        (List.filter (fun v =>
            is_in_word s v && is_not_in_word s v && is_not_tried s v &&
              decide (v ∉ (s.tries.map Prod.fst ++ s.excluded_words).dedup))
          (if s.effective_word_list = [] then s.word_list
            else s.effective_word_list))) := by
    by_cases hmo : s.max_letter_occurrence = []
    · rw [if_pos hmo] at h; exact h
    · rw [if_neg hmo] at h
      exact mem_rebind_fold _ _ _ _ (fun y hy => hy) w h
  have h2 := (List.mem_filter.mp hthird).1
  have h1 := (List.mem_filter.mp h2).1
  have hcond := (List.mem_filter.mp h1).2
  simp only [Bool.and_eq_true, is_not_tried, decide_eq_true_eq] at hcond
  exact hcond.1.2

theorem mem_suggest_loop (letters : List Char) (base : List (List Char)) :
    ∀ (i : Nat) (t : WordleSolver) (w : List Char), w ∈ suggest_loop letters base t i →
      w ∈ base ∨ ∃ u : WordleSolver, u.tries = t.tries ∧ w ∈ get_possible_words u := by
  intro i
  induction i with
  | zero => intro t w h; exact Or.inl (mem_sort_words.mp h)
  | succ i ih =>
    intro t w h
    simp only [suggest_loop] at h
    by_cases hw : get_possible_words (update_pattern_parameters
        { t with high_prob_letters := letters.take (i + 1) }) = []
    · rw [if_pos hw] at h
      rcases ih _ w h with hb | ⟨u, hu, hmem⟩
      · exact Or.inl hb
      · refine Or.inr ⟨u, ?_, hmem⟩
        rw [hu]
        simpa using update_tries { t with high_prob_letters := letters.take (i + 1) }
    · rw [if_neg hw] at h
      refine Or.inr ⟨_, ?_, mem_sort_words.mp h⟩
      simpa using update_tries { t with high_prob_letters := letters.take (i + 1) }

theorem get_suggested_words_eq (s : WordleSolver)
    (hbase : get_possible_words s ≠ [])
    (hletters : get_suggested_letters_by_freq s (get_possible_words s) ≠ []) :
    get_suggested_words s =
      if s.word_length - s.included_letters.length = 0 then
        sort_words s (get_possible_words s)
      else if get_possible_words (update_pattern_parameters s) = [] then
        sort_words (update_pattern_parameters s) (get_possible_words s)
      else sort_words (update_pattern_parameters s)
        (get_possible_words (update_pattern_parameters s)) := by
  have hup : ∀ (x : List Char) (e : List (List Char)),
      update_pattern_parameters { s with high_prob_letters := x, effective_word_list := e } =
        update_pattern_parameters s := fun x e => update_eq_of_config rfl
  have h2 : { update_pattern_parameters s with high_prob_letters := [] } =
      update_pattern_parameters s := set_hp_self (update_high_prob_letters s)
  simp only [get_suggested_words]
  rw [if_neg hbase, letters_by_freq_set_eff, if_neg hletters]
  cases hk : s.word_length - s.included_letters.length with
  | zero =>
    simp [hk, suggest_loop, sort_words_set_eff]
  | succ m =>
    rw [if_neg (Nat.succ_ne_zero m)]
    simp only [suggest_loop, hup, h2]
    by_cases hw : get_possible_words (update_pattern_parameters s) = []
    · rw [if_pos hw, if_pos hw, suggest_loop_from_update]
      simp [hw]
    · rw [if_neg hw, if_neg hw]

theorem char_ne_star_of_lowercase {c : Char} (h : c ∈ ascii_lowercase) : c ≠ '*' := by
  rintro rfl
  revert h
  decide

theorem pattern_inv_process_symbol {tries : List (List Char × List Char)} {wl : Nat}
    {t : List Char × List Char} (hmem : t ∈ tries) (hlen : t.1.length = wl)
    (hlc : ∀ c ∈ t.1, c ∈ ascii_lowercase) {s : WordleSolver} {i : Nat} (hi : i < wl)
    (hinv : pattern_inv tries wl s) : pattern_inv tries wl (process_symbol t.1 t.2 s i) := by
  obtain ⟨hL, hW, hR, hE⟩ := hinv
  simp only [process_symbol]
  split_ifs with h1 h2 h3 h4 h5
  · -- sym = '#': right spot set, letter appended to included
    refine ⟨by simpa [List.length_set] using hL, hW, ?_, hE⟩
    intro j
    by_cases hij : i = j
    · subst hij
      rw [getD_set_self _ _ _ _ (hL ▸ hi)]
      exact Or.inr ⟨⟨t, hmem, h2, rfl⟩, List.mem_append_right _ (by simp)⟩
    · rw [getD_set_ne _ _ _ hij]
      rcases hR j with h | ⟨hm, hin⟩
      · exact Or.inl h
      · exact Or.inr ⟨hm, List.mem_append_left _ hin⟩
  · -- sym = '?': wrong spot extended, letter appended to included
    refine ⟨hL, ?_, ?_, hE⟩
    · intro j c hc
      by_cases hij : i = j
      · subst hij
        by_cases hlt : i < s.wrong_spot_pattern.length
        · rw [getD_set_self _ _ _ _ hlt] at hc
          rcases List.mem_append.mp hc with hold | hnew
          · exact hW i c hold
          · exact ⟨t, hmem, h1.resolve_left h2, (List.mem_singleton.mp hnew).symm⟩
        · rw [List.set_eq_of_length_le (Nat.le_of_not_lt hlt)] at hc
          exact hW i c hc
      · rw [getD_set_ne _ _ _ hij] at hc
        exact hW j c hc
    · intro j
      rcases hR j with h | ⟨hm, hin⟩
      · exact Or.inl h
      · exact Or.inr ⟨hm, List.mem_append_left _ hin⟩
  · -- sym = '_', letter already included, new max-occurrence cap recorded
    exact ⟨hL, hW, hR, hE⟩
  · -- sym = '_', letter already included and already capped
    exact ⟨hL, hW, hR, hE⟩
  · -- sym = '_', letter not yet included: letter appended to excluded
    refine ⟨hL, hW, hR, ?_⟩
    intro c hc
    rcases List.mem_append.mp hc with hold | hnew
    · exact hE c hold
    · have hc' : c = t.1.getD i '*' := List.mem_singleton.mp hnew
      have hilt : i < t.1.length := hlen ▸ hi
      have hmm : t.1.getD i '*' ∈ t.1 := by
        rw [List.getD_eq_getElem?_getD, List.getElem?_eq_getElem hilt]
        exact List.getElem_mem hilt
      exact hc' ▸ char_ne_star_of_lowercase (hlc _ hmm)
  · -- any other feedback symbol: state unchanged
    exact ⟨hL, hW, hR, hE⟩

theorem pattern_inv_foldl_idx {tries : List (List Char × List Char)} {wl : Nat}
    {t : List Char × List Char} (hmem : t ∈ tries) (hlen : t.1.length = wl)
    (hlc : ∀ c ∈ t.1, c ∈ ascii_lowercase) :
    ∀ (idxs : List Nat), (∀ i ∈ idxs, i < wl) → ∀ {s : WordleSolver},
      pattern_inv tries wl s →
      pattern_inv tries wl (idxs.foldl (process_symbol t.1 t.2) s) := by
  intro idxs
  induction idxs with
  | nil => intro _ s hinv; exact hinv
  | cons i rest ih =>
    intro hbound s hinv
    exact ih (fun j hj => hbound j (List.mem_cons_of_mem i hj))
      (pattern_inv_process_symbol hmem hlen hlc (hbound i (List.mem_cons_self i rest)) hinv)

theorem pattern_inv_process_try {tries : List (List Char × List Char)} {wl : Nat}
    {t : List Char × List Char} (hmem : t ∈ tries) (hwf : WFTry wl t)
    {s : WordleSolver} (hwl : s.word_length = wl) (hinv : pattern_inv tries wl s) :
    pattern_inv tries wl (process_try s t) := by
  obtain ⟨hlen, _, hlc, _⟩ := hwf
  unfold process_try
  rw [hwl]
  exact pattern_inv_foldl_idx hmem hlen hlc (List.range wl)
    (fun i hi => List.mem_range.mp hi) hinv

theorem pattern_inv_foldl_tries {tries : List (List Char × List Char)} {wl : Nat} :
    ∀ (l : List (List Char × List Char)), (∀ t ∈ l, t ∈ tries) →
      (∀ t ∈ l, WFTry wl t) → ∀ {s : WordleSolver}, s.word_length = wl →
      pattern_inv tries wl s → pattern_inv tries wl (l.foldl process_try s) := by
  intro l
  induction l with
  | nil => intro _ _ s _ hinv; exact hinv
  | cons t rest ih =>
    intro hsub hwf s hwl hinv
    refine ih (fun u hu => hsub u (List.mem_cons_of_mem t hu))
      (fun u hu => hwf u (List.mem_cons_of_mem t hu)) ?_ ?_
    · exact (config_proj_word_length (solver_config_process_try s t)).trans hwl
    · exact pattern_inv_process_try (hsub t (List.mem_cons_self t rest))
        (hwf t (List.mem_cons_self t rest)) hwl hinv

theorem pattern_inv_reset (tries : List (List Char × List Char)) (s : WordleSolver) :
    pattern_inv tries s.word_length (reset_pattern_parameters s) := by
  refine ⟨by simp [reset_pattern_parameters], ?_, ?_, ?_⟩
  · intro i c hc
    simp only [reset_pattern_parameters] at hc
    rw [getD_replicate_self] at hc
    cases hc
  · intro i
    left
    simp only [reset_pattern_parameters, symbol_anyletter]
    exact getD_replicate_self _ _ '*'
  · intro c hc
    simp [reset_pattern_parameters] at hc

theorem pattern_inv_pattern_acc (s : WordleSolver)
    (hwf : ∀ t ∈ s.tries, WFTry s.word_length t) :
    pattern_inv s.tries s.word_length (pattern_acc s) :=
  pattern_inv_foldl_tries s.tries (fun _ h => h) hwf rfl (pattern_inv_reset s.tries s)

theorem count_le_of_mem_possible {s : WordleSolver} {c : Char} {cap : Nat}
    (hmo : s.max_letter_occurrence = [(c, cap)]) {w : List Char}
    (h : w ∈ get_possible_words s) : w.count c ≤ cap := by
  simp only [get_possible_words] at h
  rw [hmo] at h
  rw [if_neg (by simp)] at h
  simp only [List.map_cons, List.map_nil, List.foldl_cons, List.foldl_nil] at h
  have hc := (List.mem_filter.mp h).2
  simp only [decide_eq_true_eq, List.lookup_cons, beq_self_eq_true, if_true, Option.getD_some] at hc
  simpa using hc

theorem foldl_append_msgs {P : Char × String → Prop}
    {f : List (Char × String) → Char → List (Char × String)}
    (hf : ∀ acc c, ∀ p ∈ f acc c, p ∈ acc ∨ P p) :
    ∀ (l : List Char) (acc : List (Char × String)), (∀ p ∈ acc, P p) →
      ∀ p ∈ l.foldl f acc, P p := by
  intro l
  induction l with
  | nil => intro acc hacc p hp; exact hacc p hp
  | cons c rest ih =>
    intro acc hacc p hp
    refine ih (f acc c) ?_ p hp
    intro q hq
    rcases hf acc c q hq with h | h
    · exact hacc q h
    · exact h

/-- Claim C3: the claim states that every word returned by
`get_possible_words` respects EVERY letter's max-occurrence cap.  The code's
`for letter in self.max_letter_occurrence.keys()` loop rebuilds
`fourth_level_filter` from `third_level_filter` at each iteration, so only
the last cap is enforced: in `exC3` the caps are `[('e', 1), ('a', 1)]`, yet
"ebabe", which contains two `e`, is returned (only the `'a'` cap was
applied).  This theorem evaluates the code at that failing input. -/
theorem c3_max_occurrence_last_cap_only :
    get_possible_words exC3 = ["ebabe".toList] ∧
      List.lookup 'e' exC3.max_letter_occurrence = some 1 ∧
      "ebabe".toList.count 'e' = 2 := by decide

/-- Claim C9 (counterexample): for the guess "sheep" with feedback
`[Absent, Correct, Correct, Correct, Absent]` no letter is marked Absent
while already included, so `max_letter_occurrence` has NO entry for `'e'`
(the claim says `maxLetterOccurrence['e'] = 2`), and the word "theee" with
three `e` passes the candidate filter (the claim says it must be
excluded). -/
theorem c9_scenario_counterexample :
    List.lookup 'e' exC9.max_letter_occurrence = none ∧
      "theee".toList ∈ get_possible_words exC9 ∧
      "theee".toList.count 'e' = 3 := by decide

/-- Claim C9 (amended): with feedback `[Absent, Correct, Correct, Absent,
Absent]` for "sheep" (the second `e` marked Absent), the derived state has
`maxLetterOccurrence['e'] = 1` and, over any word list, every word returned
by the candidate filter contains at most one `e`. -/
theorem c9_max_occurrence_amended (wl : List (List Char)) :
    List.lookup 'e' (sheep_amended_solver wl).max_letter_occurrence = some 1 ∧
      ∀ w ∈ get_possible_words (sheep_amended_solver wl), w.count 'e' ≤ 1 := by
  constructor
  · rfl
  · intro w hw
    exact count_le_of_mem_possible rfl hw

/-- Witness for `c9_max_occurrence_amended` at a concrete word list
containing "thema", which the filter indeed returns. -/
theorem c9_max_occurrence_amended_witness :
    List.lookup 'e' (sheep_amended_solver ["thema".toList]).max_letter_occurrence = some 1 ∧
      "thema".toList.count 'e' ≤ 1 := by
  have h := c9_max_occurrence_amended ["thema".toList]
  exact ⟨h.1, h.2 "thema".toList (by decide)⟩

/-- Claim C5: for every solver state and every malformed guess input — wrong
word or feedback length, a non-lowercase character in the word, or a feedback
symbol outside `#?_` — `input_guess_result` raises (second component `some`
error) and leaves the state, in particular the try history and every pattern
field, exactly as it was (first component equals the input state): every
`raise` in the source precedes the `self.tries.append`. -/
theorem c5_malformed_input_rejected (s : WordleSolver) (word result_symbols : List Char)
    (hbad : word.length ≠ s.word_length ∨ result_symbols.length ≠ s.word_length ∨
      (∃ c ∈ word, c ∉ ascii_lowercase) ∨
      (∃ c ∈ result_symbols, c ∉ permitted_input_symbols)) :
    (input_guess_result s word result_symbols).1 = s ∧
      (input_guess_result s word result_symbols).2.isSome = true := by
  simp only [input_guess_result]
  split_ifs with h1 h2 h3
  · exact ⟨rfl, rfl⟩
  · exfalso
    push_neg at h1
    rcases hbad with h | h | h | h
    · exact h h1.1
    · exact h h1.2
    · obtain ⟨c, hc, hnc⟩ := h
      simp only [List.all_eq_true, decide_eq_true_eq] at h2
      exact hnc (h2 c hc)
    · obtain ⟨c, hc, hnc⟩ := h
      simp only [List.all_eq_true, decide_eq_true_eq] at h3
      exact hnc (h3 c hc)
  · exact ⟨rfl, rfl⟩
  · exact ⟨rfl, rfl⟩

/-- Witness for `c5_malformed_input_rejected`: a three-letter word against
the configured length five. -/
theorem c5_malformed_input_rejected_witness :
    (input_guess_result exC5 "abc".toList "___".toList).1 = exC5 ∧
      (input_guess_result exC5 "abc".toList "___".toList).2.isSome = true :=
  c5_malformed_input_rejected exC5 "abc".toList "___".toList (Or.inl (by decide))

/-- Claim C6: for every sequence of well-formed guesses, after
`update_pattern_parameters` finishes, `included_letters` and
`excluded_letters` are disjoint — line 210 of the source filters the
accumulated exclusions against the final (deduplicated) inclusions, so a
letter excluded by an early try and included only by a later try is removed
from the exclusion set. -/
theorem c6_included_excluded_disjoint (s : WordleSolver)
    (hwf : ∀ t ∈ s.tries, WFTry s.word_length t) :
    ∀ c ∈ (update_pattern_parameters s).included_letters,
      c ∉ (update_pattern_parameters s).excluded_letters := by
  intro c hc hce
  rw [update_excluded_letters] at hce
  rw [update_included_letters] at hc
  have hfil := List.mem_filter.mp (List.mem_dedup.mp hce)
  have hnot := hfil.2
  simp only [decide_eq_true_eq] at hnot
  exact hnot hc

/-- Witness for `c6_included_excluded_disjoint`: after the well-formed guess
"aabcd" with feedback "?_###" (where `a` is both marked Absent at position 1
and PresentWrongSpot at position 0), `'a'` is not excluded. -/
theorem c6_included_excluded_disjoint_witness : 'a' ∉ exC6.excluded_letters :=
  c6_included_excluded_disjoint
    { fresh_solver [] with tries := [("aabcd".toList, "?_###".toList)] }
    (by decide) 'a' (by decide)

/-- Claim C7 (counterexample): well-formedness of the guesses does not give
the claimed invariant — guessing "abcde" twice, once with `'a'` marked
PresentWrongSpot at position 0 and once with `'a'` marked Correct there
(feedback the solver accepts), leaves `'a'` both as `rightSpotPattern[0]`
and inside `wrongSpotPattern[0]`. -/
theorem c7_counterexample :
    (∀ t ∈ [("abcde".toList, "?____".toList), ("abcde".toList, "#____".toList)],
      WFTry 5 t) ∧
    exC7.right_spot_pattern.getD 0 '*' = 'a' ∧
    'a' ∈ exC7.wrong_spot_pattern.getD 0 [] := by decide

/-- Claim C7 (amended): for every sequence of well-formed guesses, no letter
appears in both `excluded_letters` and `right_spot_pattern`; and provided the
feedback is position-consistent (no letter marked both Correct and
PresentWrongSpot at the same position by different tries — true whenever the
feedback comes from a fixed hidden word), no right-spot letter appears in
that position's wrong-spot set. -/
theorem c7_pattern_invariants_amended (s : WordleSolver)
    (hwf : ∀ t ∈ s.tries, WFTry s.word_length t) :
    (∀ c ∈ (update_pattern_parameters s).excluded_letters,
        c ∉ (update_pattern_parameters s).right_spot_pattern) ∧
    (pos_consistent s.word_length s.tries →
      ∀ i, (update_pattern_parameters s).right_spot_pattern.getD i '*' = '*' ∨
        (update_pattern_parameters s).right_spot_pattern.getD i '*' ∉
          (update_pattern_parameters s).wrong_spot_pattern.getD i []) := by
  obtain ⟨hL, hW, hR, hE⟩ := pattern_inv_pattern_acc s hwf
  constructor
  · intro c hc hcr
    rw [update_excluded_letters] at hc
    rw [update_right_spot] at hcr
    have hcf := List.mem_filter.mp (List.mem_dedup.mp hc)
    have hcnotinc : c ∉ (pattern_acc s).included_letters.dedup := by simpa using hcf.2
    have hcexc : c ∈ (pattern_acc s).excluded_letters := hcf.1
    obtain ⟨j, hj, hget⟩ := List.mem_iff_getElem.mp hcr
    have hgetD : (pattern_acc s).right_spot_pattern.getD j '*' = c := by
      rw [List.getD_eq_getElem?_getD, List.getElem?_eq_getElem hj, Option.getD_some, hget]
    rcases hR j with hstar | ⟨_, hinc⟩
    · exact hE c hcexc (hgetD.symm.trans hstar)
    · exact hcnotinc (List.mem_dedup.mpr (hgetD ▸ hinc))
  · intro hcons i
    by_cases hstar : (update_pattern_parameters s).right_spot_pattern.getD i '*' = '*'
    · exact Or.inl hstar
    · refine Or.inr fun hmem => ?_
      rw [update_right_spot] at hstar hmem
      rw [update_wrong_spot, getD_map_dedup] at hmem
      have hlt : i < (pattern_acc s).right_spot_pattern.length := lt_length_of_getD_ne hstar
      have hiwl : i < s.word_length := hL ▸ hlt
      rcases hR i with h | ⟨⟨t, ht, hts, htw⟩, _⟩
      · exact hstar h
      · obtain ⟨u, hu, hus, huw⟩ := hW i _ (List.mem_dedup.mp hmem)
        exact hcons i hiwl t ht u hu hts hus (htw.trans huw.symm)

/-- Witness for `c7_pattern_invariants_amended` at the well-formed,
position-consistent single guess "aabcd" with feedback "?_###", position 0. -/
theorem c7_pattern_invariants_amended_witness :
    exC6.right_spot_pattern.getD 0 '*' = '*' ∨
      exC6.right_spot_pattern.getD 0 '*' ∉ exC6.wrong_spot_pattern.getD 0 [] := by
  have h := c7_pattern_invariants_amended
    { fresh_solver [] with tries := [("aabcd".toList, "?_###".toList)] }
    ((by decide : ∀ t ∈ ([("aabcd".toList, "?_###".toList)] :
      List (List Char × List Char)), WFTry 5 t))
  exact h.2 (by decide) 0

/-- Claim C10: `get_pattern_parameter_conflicts` is partial.  When
`excluded_letters` is empty and some position `i` has its right-spot letter
inside `wrong_spot_pattern[i]`, the call fails (the Python references the
undefined loop variable `letter`, modelled as `none`); and when
`excluded_letters` is non-empty, every right-spot/wrong-spot conflict entry
reports the last excluded letter rather than the conflicting right-spot
letter. -/
theorem c10_conflicts_partial (s : WordleSolver)
    (hrl : s.right_spot_pattern.length = s.word_length)
    (hwl : s.wrong_spot_pattern.length = s.word_length) :
    ((s.excluded_letters = [] ∧ ∃ i < s.word_length,
        s.right_spot_pattern.getD i '*' ∈ s.wrong_spot_pattern.getD i []) →
      get_pattern_parameter_conflicts s = none) ∧
    (∀ L, s.excluded_letters.getLast? = some L →
      ∀ p ∈ (get_pattern_parameter_conflicts s).getD [],
        p.2 = "letter in right spot found in wrong spot pattern" → p.1 = L) := by
  have hmsgs : ∀ q ∈ s.excluded_letters.foldl (fun acc letter =>
      let acc2 := if letter ∈ s.included_letters ++ s.high_prob_letters then
        acc ++ [(letter, "excluded letter found in inclusion list")] else acc
      if letter ∈ s.right_spot_pattern then
        acc2 ++ [(letter, "excluded letter found in right spot pattern")] else acc2) [],
      q.2 = "excluded letter found in inclusion list" ∨
        q.2 = "excluded letter found in right spot pattern" := by
    refine foldl_append_msgs ?_ s.excluded_letters [] (by simp)
    intro acc c q hq
    dsimp only at hq
    split_ifs at hq with ha hb hc
    · rcases List.mem_append.mp hq with h | h
      · rcases List.mem_append.mp h with h' | h'
        · exact Or.inl h'
        · exact Or.inr (Or.inl (congrArg Prod.snd (List.mem_singleton.mp h')))
      · exact Or.inr (Or.inr (congrArg Prod.snd (List.mem_singleton.mp h)))
    · rcases List.mem_append.mp hq with h | h
      · exact Or.inl h
      · exact Or.inr (Or.inr (congrArg Prod.snd (List.mem_singleton.mp h)))
    · rcases List.mem_append.mp hq with h | h
      · exact Or.inl h
      · exact Or.inr (Or.inl (congrArg Prod.snd (List.mem_singleton.mp h)))
    · exact Or.inl hq
  constructor
  · rintro ⟨hexc, i, hi, hcond⟩
    have hne : (List.range s.word_length).filter (fun i =>
        decide (s.right_spot_pattern.getD i '*' ∈ s.wrong_spot_pattern.getD i [])) ≠ [] :=
      List.ne_nil_of_mem (List.mem_filter.mpr ⟨List.mem_range.mpr hi, by simpa using hcond⟩)
    simp only [get_pattern_parameter_conflicts]
    rw [if_neg hne, hexc]
    rfl
  · intro L hL p hp hmsg
    simp only [get_pattern_parameter_conflicts] at hp
    by_cases hpos : (List.range s.word_length).filter (fun i =>
        decide (s.right_spot_pattern.getD i '*' ∈ s.wrong_spot_pattern.getD i [])) = []
    · rw [if_pos hpos] at hp
      simp only [Option.getD_some] at hp
      rcases hmsgs p hp with h | h <;> (rw [hmsg] at h; exact absurd h (by decide))
    · rw [if_neg hpos, hL] at hp
      simp only [Option.getD_some] at hp
      rcases List.mem_append.mp hp with h | h
      · rcases hmsgs p h with h' | h' <;> (rw [hmsg] at h'; exact absurd h' (by decide))
      · obtain ⟨i, _, rfl⟩ := List.mem_map.mp h
        rfl

/-- Witness for `c10_conflicts_partial`: a state with empty
`excluded_letters`, `rightSpotPattern = "a****"` and `'a'` in
`wrongSpotPattern[0]`, where the conflict check fails. -/
theorem c10_conflicts_partial_witness : get_pattern_parameter_conflicts exC10 = none := by
  have h := c10_conflicts_partial exC10 (by decide) (by decide)
  exact h.1 ⟨rfl, 0, by decide, by decide⟩

/-- Claim C1 (counterexample): the relaxation loop described by the spec
(`get_suggested_words_spec`, which really keeps the top-`i` most frequent
letters as an extra must-include constraint) and the source's
`get_suggested_words` disagree on `exC1`, whose base candidate set is
non-empty: the source returns both words because `update_pattern_parameters`
erases `high_prob_letters` before the candidate set is recomputed, while the
spec's loop returns only "abcde". -/
theorem c1_relaxation_counterexample :
    get_possible_words exC1 ≠ [] ∧
      get_suggested_words exC1 ≠ get_suggested_words_spec exC1 := by decide

/-- Claim C1 (amended): the loop does run `i` from
`word_length - |includedLetters|` down to `1`, but each step's
`highProbLetters` assignment is immediately reset by
`update_pattern_parameters`, so every step tests the candidate set
recomputed from the try history alone (with caller-installed
`excluded_words` cleared as well): whenever the base set and the
suggested-letter list are non-empty and the loop runs at all, the result is
that recomputed set, ranked — or the ranked base set if the recomputed set
is empty. -/
theorem c1_relaxation_amended (s : WordleSolver)
    (hbase : get_possible_words s ≠ [])
    (hletters : get_suggested_letters_by_freq s (get_possible_words s) ≠ [])
    (hk : 1 ≤ s.word_length - s.included_letters.length) :
    get_suggested_words s =
      if get_possible_words (update_pattern_parameters s) = [] then
        sort_words (update_pattern_parameters s) (get_possible_words s)
      else sort_words (update_pattern_parameters s)
        (get_possible_words (update_pattern_parameters s)) := by
  rw [get_suggested_words_eq s hbase hletters, if_neg (by omega)]

/-- Witness for `c1_relaxation_amended` at `exC1` (no tries, two words). -/
theorem c1_relaxation_amended_witness :
    get_suggested_words exC1 =
      if get_possible_words (update_pattern_parameters exC1) = [] then
        sort_words (update_pattern_parameters exC1) (get_possible_words exC1)
      else sort_words (update_pattern_parameters exC1)
        (get_possible_words (update_pattern_parameters exC1)) :=
  c1_relaxation_amended exC1 (by decide) (by decide) (by decide)

/-- Claim C2 (counterexample): in `exC2` the base candidate set is the
non-empty `["bcdea"]`, but every alphabet letter is already included or
excluded, so `get_suggested_letters_by_freq` is empty and
`get_suggested_words` returns `[]` through its early return, contradicting
the claimed guarantee. -/
theorem c2_nonempty_counterexample :
    get_possible_words exC2 ≠ [] ∧ get_suggested_words exC2 = [] := by decide

/-- Claim C2 (amended): whenever the base candidate set is non-empty AND at
least one alphabet letter lies outside
`included_letters ++ excluded_letters ++ high_prob_letters` (the
suggested-letter list is non-empty), `get_suggested_words` returns a
non-empty list; in particular the fall-through returns the full base
candidate set, ranked. -/
theorem c2_nonempty_amended (s : WordleSolver)
    (hbase : get_possible_words s ≠ [])
    (hletters : get_suggested_letters_by_freq s (get_possible_words s) ≠ []) :
    get_suggested_words s ≠ [] := by
  rw [get_suggested_words_eq s hbase hletters]
  split_ifs with h1 h2
  · exact sort_words_ne_nil hbase
  · exact sort_words_ne_nil hbase
  · exact sort_words_ne_nil h2

/-- Witness for `c2_nonempty_amended` at `exC4`. -/
theorem c2_nonempty_amended_witness : get_suggested_words exC4 ≠ [] :=
  c2_nonempty_amended exC4 (by decide) (by decide)

/-- Claim C4 (counterexample): with the caller-supplied exclusion "slate"
installed, `get_suggested_words` nevertheless returns "slate": the
relaxation step calls `update_pattern_parameters`, whose
`reset_pattern_parameters` clears `excluded_words` before the candidate set
is recomputed. -/
theorem c4_excluded_words_counterexample :
    "slate".toList ∈ get_suggested_words exC4 ∧
      "slate".toList ∈ exC4.excluded_words := by decide

/-- Claim C4 (amended): no word returned by `get_suggested_words` is an
already-tried word (the try history survives the recomputation and every
filtering level removes tried words); the caller-supplied exclusion set, by
contrast, is honoured only by the base candidate computation and can be
violated, as the counterexample shows. -/
theorem c4_not_tried_amended (s : WordleSolver) (w : List Char)
    (h : w ∈ get_suggested_words s) : w ∉ s.tries.map Prod.fst := by
  simp only [get_suggested_words] at h
  by_cases hbase : get_possible_words s = []
  · rw [if_pos hbase] at h
    cases h
  · rw [if_neg hbase, letters_by_freq_set_eff] at h
    by_cases hl : get_suggested_letters_by_freq s (get_possible_words s) = []
    · rw [if_pos hl] at h
      cases h
    · rw [if_neg hl] at h
      rcases mem_suggest_loop _ _ _ _ _ h with hb | ⟨u, hu, hmem⟩
      · exact mem_possible_words_not_tried hb
      · have hut : u.tries = s.tries := hu
        exact hut ▸ mem_possible_words_not_tried hmem

/-- Witness for `c4_not_tried_amended`: "abcde" is suggested for `exC1` and
is indeed not among its (empty) tries. -/
theorem c4_not_tried_amended_witness : "abcde".toList ∉ exC1.tries.map Prod.fst :=
  c4_not_tried_amended exC1 "abcde".toList (by decide)

/-- Claim C8: with two sources, cutover thresholds `[1, T]` and at least one
submitted guess (but fewer than `T`), `multi_get_suggested_words` skips
source 1 regardless of its contents and returns source 2's suggestions
tagged with source 2's file path; when source 2 is empty too, this is the
empty result tagged with the last configured source's path, which is again
source 2's. -/
theorem c8_cutover (ms : WordleSolverMultiList) (s1 s2 : WordleSolver) (p1 p2 : String)
    (T : Nat) (hs : ms.solvers = [s1, s2]) (hm : ms.max_try_indexes_for_lists = [1, T])
    (hp : ms.word_list_file_paths = [p1, p2]) (h1 : 1 ≤ ms.tries.length)
    (hT : ms.tries.length < T) :
    multi_get_suggested_words ms = ⟨get_suggested_words s2, some p2⟩ := by
  have hlen : ms.solvers.length = 2 := by rw [hs]; rfl
  have hml : ms.max_try_indexes_for_lists.length = 2 := by rw [hm]; rfl
  have hrange : List.range ms.solvers.length = [0, 1] := by rw [hlen]; rfl
  have hg1 : ms.solvers.getD 1 default_solver = s2 := by rw [hs]; rfl
  have hm0 : ms.max_try_indexes_for_lists.getD 0 0 = 1 := by rw [hm]; rfl
  have hm1 : ms.max_try_indexes_for_lists.getD 1 0 = T := by rw [hm]; rfl
  have hp1 : ms.word_list_file_paths.get? 1 = some p2 := by rw [hp]; rfl
  have hpl : ms.word_list_file_paths.getLast? = some p2 := by rw [hp]; rfl
  unfold multi_get_suggested_words
  rw [hrange]
  simp only [multi_suggest_loop, hg1, hm0, hm1, hp1, hpl]
  rw [if_pos ⟨by rw [hml, hlen], h1⟩]
  rw [if_neg (fun hand => (Nat.not_le.mpr hT) hand.2)]
  by_cases hw : get_suggested_words s2 = []
  · rw [if_pos hw, hw]
  · rw [if_neg hw]

/-- Witness for `c8_cutover` at `exC8` (thresholds `[1, 7]`, one guess
submitted). -/
theorem c8_cutover_witness :
    multi_get_suggested_words exC8 = ⟨get_suggested_words default_solver, some "words_b.txt"⟩ :=
  c8_cutover exC8 default_solver default_solver "words_a.txt" "words_b.txt" 7
    rfl rfl rfl (by decide) (by decide)
